import Mathlib

/-!
Verification of the MediGraphAI core: the Snowflake-to-Neo4j graph loader
(`scripts/sf_to_aura.py`) and the natural-language question router
(`answer_question_from_aura_live` in `app.py`), shallowly embedded in Lean.

String primitives below mirror the Python string operations used by the
router: `in` (substring test), `str.split(pat, 1)[1]` (suffix after the
first occurrence), `str.replace` (replace all occurrences), `str.strip`,
`str.lower`, `str.upper`, `str.startswith`.
-/

/-- Boolean test that the first list is a prefix of the second. -/
def isPrefixOfL (pat s : List Char) : Bool :=
  match pat, s with
  | [], _ => true
  | _ :: _, [] => false
  | p :: ps, c :: cs => p == c && isPrefixOfL ps cs

/-- Boolean substring test: `pat` occurs contiguously inside `s`
(Python `pat in s`). -/
def containsL (pat s : List Char) : Bool :=
  match s with
  | [] => pat.isEmpty
  | _ :: cs => isPrefixOfL pat s || containsL pat cs

/-- Characters after the first occurrence of `pat` in `s`
(Python `s.split(pat, 1)[1]`, meaningful when `pat` occurs in `s`). -/
def afterFirstL (pat s : List Char) : List Char :=
  match s with
  | [] => []
  | _ :: cs =>
    if isPrefixOfL pat s then s.drop pat.length else afterFirstL pat cs

/-- Fuel-driven replacement of every occurrence of `pat` by `rep`
(Python `s.replace(pat, rep)`); the fuel is the length of `s`, which
bounds the number of recursive steps. -/
def replaceFuel (pat rep : List Char) : Nat → List Char → List Char
  | 0, s => s
  | _ + 1, [] => []
  | fuel + 1, c :: cs =>
    if pat.isEmpty then c :: cs
    else if isPrefixOfL pat (c :: cs) then
      rep ++ replaceFuel pat rep fuel ((c :: cs).drop pat.length)
    else c :: replaceFuel pat rep fuel cs

/-- Replace every occurrence of `pat` in `s` by `rep`. -/
def replaceL (pat rep s : List Char) : List Char :=
  replaceFuel pat rep s.length s

/-- Whitespace characters removed by Python `str.strip`. -/
def isSpaceC (c : Char) : Bool :=
  c == ' ' || c == '\t' || c == '\n' || c == '\r' || c == '\x0b' || c == '\x0c'

/-- Remove leading and trailing whitespace (Python `str.strip`). -/
def stripL (s : List Char) : List Char :=
  ((s.dropWhile isSpaceC).reverse.dropWhile isSpaceC).reverse

/-- ASCII lower-casing of one character. -/
def lowerC (c : Char) : Char :=
  if 65 ≤ c.toNat ∧ c.toNat ≤ 90 then Char.ofNat (c.toNat + 32) else c

/-- ASCII upper-casing of one character. -/
def upperC (c : Char) : Char :=
  if 97 ≤ c.toNat ∧ c.toNat ≤ 122 then Char.ofNat (c.toNat - 32) else c

/-- Substring test on strings (Python `pat in s`). -/
def strContains (s pat : String) : Bool := containsL pat.data s.data

/-- Suffix of `s` after the first occurrence of `pat`. -/
def strAfterFirst (s pat : String) : String := ⟨afterFirstL pat.data s.data⟩

/-- Replace every occurrence of `pat` in `s` by `rep`. -/
def strReplace (s pat rep : String) : String := ⟨replaceL pat.data rep.data s.data⟩

/-- Strip leading and trailing whitespace from a string. -/
def strStrip (s : String) : String := ⟨stripL s.data⟩

/-- ASCII lower-casing of a string. -/
def strLower (s : String) : String := ⟨s.data.map lowerC⟩

/-- ASCII upper-casing of a string. -/
def strUpper (s : String) : String := ⟨s.data.map upperC⟩

/-- Prefix test on strings (Python `s.startswith(pat)`). -/
def strStartsW (s pat : String) : Bool := isPrefixOfL pat.data s.data

/-!
Graph-store model. A node is identified by its label together with the
value of its natural-key property (`MERGE (p:Patient {id: $pid})` keys
Patient nodes by `id`, `MERGE (c:Condition {code: $code})` keys Condition
nodes by `code`). Property values are modelled by `Cell`; a SQL NULL /
Cypher null is `Cell.null`, numeric scalars are modelled as integers.
-/

/-- A scalar property value in a row or on a node. -/
inductive Cell
  | null
  | s (v : String)
  | i (v : Int)
deriving DecidableEq, Repr

/-- Graph node: label, natural-key property name, natural-key value, and
the remaining properties as an association list. -/
structure Node where
  label : String
  keyProp : String
  key : String
  props : List (String × Cell)
deriving DecidableEq, Repr

/-- Directed, typed relationship edge between two nodes identified by
label and natural key. -/
structure Edge where
  relType : String
  srcLabel : String
  srcKey : String
  dstLabel : String
  dstKey : String
deriving DecidableEq, Repr

/-- The graph store: nodes and relationship edges. -/
structure Graph where
  nodes : List Node
  edges : List Edge
deriving DecidableEq, Repr

/-- The empty graph store. -/
def graphEmpty : Graph := Graph.mk [] []

/-- Whether a node with the given label and natural key exists. -/
def nodeExists (g : Graph) (label key : String) : Bool :=
  g.nodes.any (fun n => n.label == label && n.key == key)

/-- Count of nodes with a given label (`count_nodes` in
`scripts/sf_to_aura.py`: `MATCH (n:label) RETURN count(n)`). -/
def count_nodes (g : Graph) (label : String) : Nat :=
  (g.nodes.filter (fun n => n.label == label)).length

/-- LoadStateGate (`already_loaded` in `scripts/sf_to_aura.py`): true iff
at least one node with the label exists. -/
def already_loaded (g : Graph) (label : String) : Bool :=
  decide (0 < count_nodes g label)

/-- Look up the node with the given label and natural key. -/
def lookupNode (g : Graph) (label key : String) : Option Node :=
  g.nodes.find? (fun n => n.label == label && n.key == key)

/-- Update one property in an association list, replacing in place or
appending at the end. -/
def updateProp (ps : List (String × Cell)) (name : String) (v : Cell) :
    List (String × Cell) :=
  match ps with
  | [] => [(name, v)]
  | (k, w) :: rest =>
    if k == name then (name, v) :: rest else (k, w) :: updateProp rest name v

/-- Overwrite the listed properties on a node (Cypher `SET`). -/
def setNodeProps (n : Node) (ps : List (String × Cell)) : Node :=
  Node.mk n.label n.keyProp n.key
    (ps.foldl (fun acc p => updateProp acc p.1 p.2) n.props)

/-- Read a property of a node (Cypher `n.prop`); the natural-key property
reads back its key value, anything unset reads as null. -/
def getProp (n : Node) (name : String) : Cell :=
  if name == n.keyProp then Cell.s n.key
  else
    match n.props.find? (fun p => p.1 == name) with
    | some p => p.2
    | none => Cell.null

/-!
Primitive graph mutations. Each Cypher clause executed by the loader is
one `GOp`: `MERGE (n:L {key: $k})` is `mergeN`, `SET n.a = $a, ...` is
`setP`, and `MERGE (a)-[:R]->(b)` is `mergeE`. A row's Cypher statement
is a list of `GOp`s applied left to right.
-/

/-- One primitive graph operation. -/
inductive GOp
  | mergeN (label keyProp key : String)
  | setP (label key : String) (props : List (String × Cell))
  | mergeE (relType srcLabel srcKey dstLabel dstKey : String)
deriving DecidableEq, Repr

/-- Apply one primitive operation: `mergeN` creates the node if absent
and otherwise leaves the graph unchanged; `setP` overwrites properties on
the matching node; `mergeE` adds the edge if not already present. -/
def applyOp (g : Graph) : GOp → Graph
  | GOp.mergeN l kp k =>
    if nodeExists g l k then g
    else Graph.mk (g.nodes ++ [Node.mk l kp k []]) g.edges
  | GOp.setP l k ps =>
    Graph.mk
      (g.nodes.map (fun n =>
        if n.label == l && n.key == k then setNodeProps n ps else n))
      g.edges
  | GOp.mergeE rt sl sk dl dk =>
    let e := Edge.mk rt sl sk dl dk
    if g.edges.contains e then g else Graph.mk g.nodes (g.edges ++ [e])

/-- Apply a list of primitive operations left to right. -/
def applyOps (g : Graph) (ops : List GOp) : Graph := ops.foldl applyOp g

/-- Apply one row's operations for every row of a batch, left to right. -/
def runBatch {ρ : Type} (f : ρ → List GOp) (g : Graph) (rows : List ρ) : Graph :=
  rows.foldl (fun h r => applyOps h (f r)) g

/-- Shared loader skeleton: skip the whole batch when the LoadStateGate
fires, otherwise upsert every row and report the processed count. -/
def gatedLoad {ρ : Type} (label : String) (f : ρ → List GOp)
    (g : Graph) (rows : List ρ) : Graph × Nat :=
  if already_loaded g label then (g, 0) else (runBatch f g rows, rows.length)

/-!
Row shapes of the six Snowflake extracts and the Cypher each loader runs
per row, transcribed from `scripts/sf_to_aura.py`.
-/

/-- Row of `V_PATIENTS`: PATIENT_ID, FIRST_NAME, LAST_NAME, SEX, ZIP, AGE. -/
structure PatientRow where
  pid : String
  first : String
  last : String
  sex : String
  zip : Option String
  age : Option Int
deriving DecidableEq, Repr

/-- Row of `V_PROVIDERS`: PROVIDER_ID, PROVIDER_NAME, SPECIALTY, STATE, ZIP. -/
structure ProviderRow where
  pid : String
  name : String
  specialty : String
  state : String
  zip : Option String
deriving DecidableEq, Repr

/-- Row of `V_ENCOUNTERS`: ENC_ID, PATIENT_ID, PROVIDER_NPI, START_TIME,
END_TIME. -/
structure EncounterRow where
  enc_id : String
  pid : String
  provider_npi : String
  start_time : Option String
  end_time : Option String
deriving DecidableEq, Repr

/-- Row of `V_CONDITIONS`: ENC_ID, PATIENT_ID, ICD_CODE, NAME. -/
structure ConditionRow where
  enc_id : String
  pid : String
  code : String
  name : String
deriving DecidableEq, Repr

/-- Row of `V_MEDICATIONS`: ENC_ID, PATIENT_ID, RXNORM, NAME. -/
structure MedicationRow where
  enc_id : String
  pid : String
  code : String
  name : String
deriving DecidableEq, Repr

/-- Row of `OBSERVATIONS`: OBSERVATION_ID, PATIENT_ID, ENCOUNTER_ID,
DESCRIPTION, VALUE, UNIT, CATEGORY, CODE, OBS_DATETIME. The identifiers
may be NULL, which the loader guards against. -/
structure ObservationRow where
  obs_id : Option String
  pid : Option String
  enc_id : Option String
  descr : Option String
  value : Option Int
  unit : Option String
  category : Option String
  code : Option String
  obs_dt : Option String
deriving DecidableEq, Repr

/-- Lift an optional string to a property cell. -/
def cellOfS : Option String → Cell
  | some v => Cell.s v
  | none => Cell.null

/-- Lift an optional integer to a property cell. -/
def cellOfI : Option Int → Cell
  | some v => Cell.i v
  | none => Cell.null

/-- Per-row Cypher of `load_patients`: merge the Patient node by id and
set its scalar attributes, with `full_name = $first + ' ' + $last`. -/
def patientOps (r : PatientRow) : List GOp :=
  [ GOp.mergeN "Patient" "id" r.pid,
    GOp.setP "Patient" r.pid
      [ ("first_name", Cell.s r.first),
        ("last_name", Cell.s r.last),
        ("full_name", Cell.s (r.first ++ " " ++ r.last)),
        ("sex", Cell.s r.sex),
        ("zip", cellOfS r.zip),
        ("age", cellOfI r.age) ] ]

/-- Per-row Cypher of `load_providers`. -/
def providerOps (r : ProviderRow) : List GOp :=
  [ GOp.mergeN "Provider" "id" r.pid,
    GOp.setP "Provider" r.pid
      [ ("name", Cell.s r.name),
        ("specialty", Cell.s r.specialty),
        ("state", Cell.s r.state),
        ("zip", cellOfS r.zip) ] ]

/-- Per-row Cypher of `load_encounters`: merge the Patient and Encounter
nodes, set the encounter attributes, link them, then merge a stub
Provider keyed by the row's provider NPI and link both the encounter and
the patient to it. -/
def encounterOps (r : EncounterRow) : List GOp :=
  [ GOp.mergeN "Patient" "id" r.pid,
    GOp.mergeN "Encounter" "id" r.enc_id,
    GOp.setP "Encounter" r.enc_id
      [ ("start_time", cellOfS r.start_time),
        ("end_time", cellOfS r.end_time),
        ("provider_npi", Cell.s r.provider_npi) ],
    GOp.mergeE "HAS_ENCOUNTER" "Patient" r.pid "Encounter" r.enc_id,
    GOp.mergeN "Provider" "id" r.provider_npi,
    GOp.mergeE "HAS_PROVIDER" "Encounter" r.enc_id "Provider" r.provider_npi,
    GOp.mergeE "HAS_PROVIDER" "Patient" r.pid "Provider" r.provider_npi ]

/-- Per-row Cypher of `load_conditions`. -/
def conditionOps (r : ConditionRow) : List GOp :=
  [ GOp.mergeN "Patient" "id" r.pid,
    GOp.mergeN "Encounter" "id" r.enc_id,
    GOp.mergeN "Condition" "code" r.code,
    GOp.setP "Condition" r.code [("name", Cell.s r.name)],
    GOp.mergeE "HAS_CONDITION" "Patient" r.pid "Condition" r.code,
    GOp.mergeE "HAS_CONDITION" "Encounter" r.enc_id "Condition" r.code ]

/-- Per-row Cypher of `load_medications`. -/
def medicationOps (r : MedicationRow) : List GOp :=
  [ GOp.mergeN "Patient" "id" r.pid,
    GOp.mergeN "Encounter" "id" r.enc_id,
    GOp.mergeN "Medication" "code" r.code,
    GOp.setP "Medication" r.code [("name", Cell.s r.name)],
    GOp.mergeE "TAKES_MEDICATION" "Patient" r.pid "Medication" r.code,
    GOp.mergeE "HAS_MEDICATION" "Encounter" r.enc_id "Medication" r.code ]

/-- A fetched observation row passes the loader's guard iff both its
observation id and its patient id are non-null. -/
def obsValid (r : ObservationRow) : Bool :=
  !(r.obs_id.isNone || r.pid.isNone)

/-- Per-row Cypher of `load_observations` (run only for guarded rows):
merge Patient and Observation, set the observation attributes, link the
patient, and when the row carries an encounter id (the Cypher `FOREACH`
over a 0/1-element list) merge the Encounter stub and link it too. -/
def obsOps (r : ObservationRow) : List GOp :=
  match r.obs_id, r.pid with
  | some oid, some pid =>
    [ GOp.mergeN "Patient" "id" pid,
      GOp.mergeN "Observation" "id" oid,
      GOp.setP "Observation" oid
        [ ("description", cellOfS r.descr),
          ("value", cellOfI r.value),
          ("unit", cellOfS r.unit),
          ("category", cellOfS r.category),
          ("code", cellOfS r.code),
          ("obs_datetime", cellOfS r.obs_dt) ],
      GOp.mergeE "HAS_OBSERVATION" "Patient" pid "Observation" oid ]
    ++ (match r.enc_id with
        | some eid =>
          [ GOp.mergeN "Encounter" "id" eid,
            GOp.mergeE "HAS_OBSERVATION" "Encounter" eid "Observation" oid ]
        | none => [])
  | _, _ => []

/-- ETL step for Patients (`load_patients`). -/
def load_patients (g : Graph) (rows : List PatientRow) : Graph × Nat :=
  gatedLoad "Patient" patientOps g rows

/-- ETL step for Providers (`load_providers`). -/
def load_providers (g : Graph) (rows : List ProviderRow) : Graph × Nat :=
  gatedLoad "Provider" providerOps g rows

/-- ETL step for Encounters (`load_encounters`). -/
def load_encounters (g : Graph) (rows : List EncounterRow) : Graph × Nat :=
  gatedLoad "Encounter" encounterOps g rows

/-- ETL step for Conditions (`load_conditions`). -/
def load_conditions (g : Graph) (rows : List ConditionRow) : Graph × Nat :=
  gatedLoad "Condition" conditionOps g rows

/-- ETL step for Medications (`load_medications`). -/
def load_medications (g : Graph) (rows : List MedicationRow) : Graph × Nat :=
  gatedLoad "Medication" medicationOps g rows

/-- One loop iteration of `load_observations`: rows whose observation id
or patient id is null are skipped (`continue`) before any graph
operation; other rows are upserted. -/
def obsStep (acc : Graph × Nat) (r : ObservationRow) : Graph × Nat :=
  if r.obs_id.isNone || r.pid.isNone then acc
  else (applyOps acc.1 (obsOps r), acc.2 + 1)

/-- ETL step for Observations (`load_observations`). -/
def load_observations (g : Graph) (rows : List ObservationRow) : Graph × Nat :=
  if already_loaded g "Observation" then (g, 0)
  else rows.foldl obsStep (g, 0)

/-- Insert into a list sorted by the boolean relation `le`. -/
def insertByLe {α : Type} (le : α → α → Bool) (a : α) : List α → List α
  | [] => [a]
  | b :: bs => if le a b then a :: b :: bs else b :: insertByLe le a bs

/-- Insertion sort by the boolean relation `le`. -/
def sortByLe {α : Type} (le : α → α → Bool) (l : List α) : List α :=
  l.foldr (insertByLe le) []

/-- Ordering on optional timestamps used by `ORDER BY OBS_DATETIME`
(NULLs last). -/
def optDtLe (a b : Option String) : Bool :=
  match a, b with
  | none, none => true
  | none, some _ => false
  | some _, none => true
  | some x, some y => decide (x ≤ y)

/-- Source query of `load_observations`:
`SELECT ... FROM OBSERVATIONS WHERE OBSERVATION_ID IS NOT NULL
ORDER BY OBS_DATETIME LIMIT maxRows`. -/
def obs_source_rows (tbl : List ObservationRow) (maxRows : Nat) :
    List ObservationRow :=
  (sortByLe (fun a b => optDtLe a.obs_dt b.obs_dt)
    (tbl.filter (fun r => !r.obs_id.isNone))).take maxRows

/-!
Question router (`answer_question_from_aura_live` in `app.py`). The
router normalizes the question (strip, lower-case), tries the three
intent matchers in priority order, executes the matched intent's single
parameterized Cypher query through `exec`, and renders the result as a
message plus an optional table. The `queriesExecuted` field records
which structured queries were dispatched.
-/

/-- The three parameterized query shapes the router can dispatch. -/
inductive CypherQuery
  | medsByPatient (pid : String)
  | medsByCondition (term : String)
  | patientsByCondition (term : String)
deriving DecidableEq, Repr

/-- A raw query result record: named values. -/
abbrev Rec := List (String × Cell)

/-- Read a named value out of a record (`row["name"]`). -/
def recGet (r : Rec) (name : String) : Cell :=
  match List.find? (fun p => p.1 == name) r with
  | some p => p.2
  | none => Cell.null

/-- Tabular result: declared column names plus rows of cells. -/
structure Frame where
  cols : List String
  rows : List (List Cell)
deriving DecidableEq, Repr

/-- What the router hands back to the caller on the non-exceptional
path: the message, the optional table, and (for auditing the contract)
the structured queries that were executed. -/
structure RouterResult where
  message : String
  table : Option Frame
  queriesExecuted : List CypherQuery
deriving DecidableEq, Repr

/-- Cypher `toLower(c.name) CONTAINS toLower($term)`: null properties
never match. -/
def cellLowerContains (c : Cell) (term : String) : Bool :=
  match c with
  | Cell.s v => strContains (strLower v) (strLower term)
  | _ => false

/-- Execute the medications-by-patient query:
`MATCH (p:Patient {id: $pid})-[:TAKES_MEDICATION]->(m:Medication)
RETURN p.id, p.full_name, m.code, m.name LIMIT 50`. -/
def qMedsByPatient (g : Graph) (pid : String) : List Rec :=
  (g.edges.filterMap (fun e =>
    if e.relType == "TAKES_MEDICATION" && e.srcLabel == "Patient" &&
        e.srcKey == pid && e.dstLabel == "Medication" then
      match lookupNode g "Patient" pid, lookupNode g "Medication" e.dstKey with
      | some p, some m =>
        some [ ("patient_id", getProp p "id"),
               ("full_name", getProp p "full_name"),
               ("rxnorm", getProp m "code"),
               ("medication", getProp m "name") ]
      | _, _ => none
    else none)).take 50

/-- Patient ids that have a HAS_CONDITION edge to a Condition whose name
contains the term case-insensitively. -/
def patientsMatchingCondition (g : Graph) (term : String) : List String :=
  g.edges.filterMap (fun e =>
    if e.relType == "HAS_CONDITION" && e.srcLabel == "Patient" &&
        e.dstLabel == "Condition" then
      match lookupNode g "Patient" e.srcKey, lookupNode g "Condition" e.dstKey with
      | some _, some c =>
        if cellLowerContains (getProp c "name") term then some e.srcKey else none
      | _, _ => none
    else none)

/-- Execute the medications-by-condition query:
`MATCH (p:Patient)-[:HAS_CONDITION]->(c:Condition),
(p)-[:TAKES_MEDICATION]->(m:Medication)
WHERE toLower(c.name) CONTAINS toLower($term)
RETURN DISTINCT m.code, m.name, COUNT(DISTINCT p) AS patients_on_med
ORDER BY patients_on_med DESC LIMIT 50`. -/
def qMedsByCondition (g : Graph) (term : String) : List Rec :=
  let condPs := patientsMatchingCondition g term
  let pms := g.edges.filterMap (fun e =>
    if e.relType == "TAKES_MEDICATION" && e.srcLabel == "Patient" &&
        e.dstLabel == "Medication" && condPs.contains e.srcKey then
      match lookupNode g "Patient" e.srcKey, lookupNode g "Medication" e.dstKey with
      | some _, some _ => some (e.srcKey, e.dstKey)
      | _, _ => none
    else none)
  let medKeys := (pms.map (fun pm => pm.2)).eraseDups
  let grouped := medKeys.filterMap (fun mk =>
    match lookupNode g "Medication" mk with
    | some m =>
      let patCount :=
        (((pms.filter (fun pm => pm.2 == mk)).map (fun pm => pm.1)).eraseDups).length
      some [ ("rxnorm", getProp m "code"),
             ("medication", getProp m "name"),
             ("patients_on_med", Cell.i patCount) ]
    | none => none)
  (sortByLe (fun a b =>
    match recGet a "patients_on_med", recGet b "patients_on_med" with
    | Cell.i x, Cell.i y => decide (y ≤ x)
    | _, _ => true) grouped).take 50

/-- Execute the patients-by-condition query:
`MATCH (p:Patient)-[:HAS_CONDITION]->(c:Condition)
WHERE toLower(c.name) CONTAINS toLower($term)
RETURN p.id, p.full_name, p.sex, p.age, c.name LIMIT 50`. -/
def qPatientsByCondition (g : Graph) (term : String) : List Rec :=
  (g.edges.filterMap (fun e =>
    if e.relType == "HAS_CONDITION" && e.srcLabel == "Patient" &&
        e.dstLabel == "Condition" then
      match lookupNode g "Patient" e.srcKey, lookupNode g "Condition" e.dstKey with
      | some p, some c =>
        if cellLowerContains (getProp c "name") term then
          some [ ("patient_id", getProp p "id"),
                 ("full_name", getProp p "full_name"),
                 ("sex", getProp p "sex"),
                 ("age", getProp p "age"),
                 ("condition", getProp c "name") ]
        else none
      | _, _ => none
    else none)).take 50

/-- Run one structured query against the graph store. -/
def runQuery (g : Graph) : CypherQuery → List Rec
  | CypherQuery.medsByPatient pid => qMedsByPatient g pid
  | CypherQuery.medsByCondition term => qMedsByCondition g term
  | CypherQuery.patientsByCondition term => qPatientsByCondition g term

/-- The non-failing executor backed by the graph store. -/
def graphExec (g : Graph) : CypherQuery → Except String (List Rec) :=
  fun q => Except.ok (runQuery g q)

/-- The fixed help enumeration returned when no matcher fires. -/
def helpText : String :=
  "Right now I support questions like:\n" ++
  "- `show patients with diabetes`\n" ++
  "- `show patients with hypertension`\n" ++
  "- `show medications for diabetes`\n" ++
  "- `show medications for patient P001`"

/-- Normalized question text: `question.strip().lower()`. -/
def normalizeQ (question : String) : String := strLower (strStrip question)

/-- Parameter extraction of the medications-by-patient matcher:
`q.split("medications for patient", 1)[1].strip().upper()`. -/
def extractPid (q : String) : String :=
  strUpper (strStrip (strAfterFirst q "medications for patient"))

/-- Parameter extraction of the medications-by-condition matcher, with
the documented default term for an empty remainder. -/
def extractMedPhrase (q : String) : String :=
  let phrase := strStrip (strReplace (strReplace (strReplace (strReplace
    q "show" "") "list" "") "medications for" "") "medication for" "")
  if phrase = "" then "diabetes" else phrase

/-- Parameter extraction of the patients-by-condition matcher, with the
documented default term for an empty remainder. -/
def extractCondPhrase (q : String) : String :=
  let phrase := strStrip (strReplace (strReplace (strReplace (strReplace
    (strReplace q "show" "") "list" "") "patients with" "") "patients" "")
    "who have" "")
  if phrase = "" then "diabetes" else phrase

/-- Whether some intent matcher fires on the question: the disjunction of
the three branch guards of the router, over the normalized text. -/
def matchesIntent (question : String) : Bool :=
  let q := normalizeQ question
  strContains q "medications for patient" ||
  (strContains q "medications for" || strContains q "medication for") ||
  (strContains q "patients with" || strStartsW q "show patients" ||
    strStartsW q "list patients")

/-- The NL-to-Cypher router (`answer_question_from_aura_live`),
parameterized by the query executor; a failure of the executor is not
caught (the Python function has no `except` clause, only a `finally`
that closes the driver), so it surfaces as `Except.error`. -/
def answer_question_from_aura_live
    (exec : CypherQuery → Except String (List Rec)) (question : String) :
    Except String RouterResult :=
  let q := normalizeQ question
  if strContains q "medications for patient" then
    let pid := extractPid q
    match exec (CypherQuery.medsByPatient pid) with
    | Except.error e => Except.error e
    | Except.ok rows =>
      if rows.isEmpty then
        Except.ok (RouterResult.mk
          ("I couldn\x27t find medications for patient **" ++ pid ++ "**.")
          none [CypherQuery.medsByPatient pid])
      else
        Except.ok (RouterResult.mk
          ("Medications for patient **" ++ pid ++ "**:")
          (some (Frame.mk ["patient_id", "full_name", "rxnorm", "medication"]
            (rows.map (fun r =>
              [ recGet r "patient_id", recGet r "full_name",
                recGet r "rxnorm", recGet r "medication" ]))))
          [CypherQuery.medsByPatient pid])
  else if strContains q "medications for" || strContains q "medication for" then
    let phrase := extractMedPhrase q
    match exec (CypherQuery.medsByCondition phrase) with
    | Except.error e => Except.error e
    | Except.ok rows =>
      if rows.isEmpty then
        Except.ok (RouterResult.mk
          ("I couldn\x27t find medications for conditions matching **\x27" ++
            phrase ++ "\x27**.")
          none [CypherQuery.medsByCondition phrase])
      else
        Except.ok (RouterResult.mk
          ("Medications used by patients with conditions matching **\x27" ++
            phrase ++ "\x27**:")
          (some (Frame.mk ["rxnorm", "medication", "patients_on_med"]
            (rows.map (fun r =>
              [ recGet r "rxnorm", recGet r "medication",
                recGet r "patients_on_med" ]))))
          [CypherQuery.medsByCondition phrase])
  else if strContains q "patients with" || strStartsW q "show patients" ||
      strStartsW q "list patients" then
    let phrase := extractCondPhrase q
    match exec (CypherQuery.patientsByCondition phrase) with
    | Except.error e => Except.error e
    | Except.ok rows =>
      if rows.isEmpty then
        Except.ok (RouterResult.mk
          ("I couldn\x27t find patients with conditions matching **\x27" ++
            phrase ++ "\x27**.")
          none [CypherQuery.patientsByCondition phrase])
      else
        Except.ok (RouterResult.mk
          ("Patients with conditions matching **\x27" ++ phrase ++ "\x27**:")
          (some (Frame.mk ["patient_id", "full_name", "sex", "age", "condition"]
            (rows.map (fun r =>
              [ recGet r "patient_id", recGet r "full_name", recGet r "sex",
                recGet r "age", recGet r "condition" ]))))
          [CypherQuery.patientsByCondition phrase])
  else
    Except.ok (RouterResult.mk helpText none [])

/-- Parameter carried by a structured query. -/
def queryParam : CypherQuery → String
  | CypherQuery.medsByPatient pid => pid
  | CypherQuery.medsByCondition term => term
  | CypherQuery.patientsByCondition term => term

/-!
Auxiliary observers used by the verification: dangling-edge freedom,
the merge keys occurring in an operation list, and a syntactic safety
check that every edge in an operation list is preceded by merges of both
of its endpoints.
-/

/-- A graph is dangling-free when both endpoint nodes of every edge
exist. -/
def danglingFreeB (g : Graph) : Bool :=
  g.edges.all (fun e =>
    nodeExists g e.srcLabel e.srcKey && nodeExists g e.dstLabel e.dstKey)

/-- Whether a (label, key) pair occurs in the accumulated merge list. -/
def keyMerged (acc : List (String × String)) (l k : String) : Bool :=
  acc.any (fun p => p.1 == l && p.2 == k)

/-- Syntactic check that every `mergeE` in the list is preceded by
`mergeN`s of both of its endpoints (`acc` accumulates merges seen so
far). -/
def opsSafe (acc : List (String × String)) : List GOp → Bool
  | [] => true
  | GOp.mergeN l _ k :: rest => opsSafe ((l, k) :: acc) rest
  | GOp.setP _ _ _ :: rest => opsSafe acc rest
  | GOp.mergeE _ sl sk dl dk :: rest =>
    keyMerged acc sl sk && keyMerged acc dl dk && opsSafe acc rest

/-- The (label, key) pairs merged as nodes by an operation list. -/
def mergeKeys (ops : List GOp) : List (String × String) :=
  ops.filterMap (fun o =>
    match o with
    | GOp.mergeN l _ k => some (l, k)
    | _ => none)

/-- Row count of an optional table (0 when there is no table). -/
def frameRows : Option Frame → Nat
  | none => 0
  | some f => f.rows.length

/-!
Concrete fixtures used by witnesses and counterexamples.
-/

/-- A patient row: Alice Nguyen, id P1. -/
def aliceRow : PatientRow :=
  PatientRow.mk "P1" "Alice" "Nguyen" "F" (some "02115") (some 45)

/-- A medication row linking patient P1 to Metformin. -/
def metforminRow : MedicationRow := MedicationRow.mk "E1" "P1" "M1" "Metformin"

/-- A provider row. -/
def provRowEx : ProviderRow :=
  ProviderRow.mk "NPI1" "Dr Smith" "Cardiology" "MA" (some "02115")

/-- A second provider row, offered to an already-populated store. -/
def provRowEx2 : ProviderRow :=
  ProviderRow.mk "NPI2" "Dr Jones" "Oncology" "NY" (some "10001")

/-- An encounter row referencing provider NPI1. -/
def encRowEx : EncounterRow :=
  EncounterRow.mk "E1" "P1" "NPI1" (some "2020-01-01") (some "2020-01-02")

/-- A graph holding Alice (P1) on Metformin, built through the loaders. -/
def gAlice : Graph :=
  (load_medications (load_patients graphEmpty [aliceRow]).1 [metforminRow]).1

/-- A graph holding one encounter for P1, built through the loader. -/
def gEnc : Graph := (load_encounters graphEmpty [encRowEx]).1

/-- A graph holding one provider, built through the loader. -/
def gProv : Graph := (load_providers graphEmpty [provRowEx]).1

/-- A fetched observation row with both identifiers present. -/
def obsRowValid : ObservationRow :=
  ObservationRow.mk (some "O1") (some "P1") (some "E1") (some "Heart rate")
    (some 72) (some "bpm") (some "vital-signs") (some "8867-4")
    (some "2020-01-01")

/-- A fetched observation row whose patient id is NULL. -/
def obsRowNull : ObservationRow :=
  ObservationRow.mk (some "O2") none none (some "Body weight") (some 80)
    (some "kg") (some "vital-signs") (some "29463-7") (some "2020-01-02")

/-!
Lemma layer: string facts, monotonicity of the primitive graph
operations, and consequences for the batched loaders.
-/

theorem isPrefixOfL_self_append (p t : List Char) :
    isPrefixOfL p (p ++ t) = true := by
  induction p with
  | nil => simp [isPrefixOfL]
  | cons c cs ih => simp [isPrefixOfL, ih]

theorem containsL_of_isPrefixOfL (p s : List Char)
    (h : isPrefixOfL p s = true) : containsL p s = true := by
  cases s with
  | nil =>
    cases p with
    | nil => simp [containsL]
    | cons c cs => simp [isPrefixOfL] at h
  | cons c cs => simp [containsL, h]

theorem containsL_append_left (l p r : List Char)
    (h : containsL p r = true) : containsL p (l ++ r) = true := by
  induction l with
  | nil => simpa
  | cons c cs ih => simp [containsL, ih]

theorem strContains_mid (a p b : String) :
    strContains (a ++ p ++ b) p = true := by
  have hdata : (a ++ p ++ b).data = a.data ++ (p.data ++ b.data) := by
    simp [String.data_append, List.append_assoc]
  unfold strContains
  rw [hdata]
  exact containsL_append_left _ _ _
    (containsL_of_isPrefixOfL _ _ (isPrefixOfL_self_append _ _))

theorem setNodeProps_label (n : Node) (ps : List (String × Cell)) :
    (setNodeProps n ps).label = n.label := rfl

theorem setNodeProps_key (n : Node) (ps : List (String × Cell)) :
    (setNodeProps n ps).key = n.key := rfl

theorem any_label_key_map (ns : List Node) (t : Node → Node)
    (ht : ∀ n, (t n).label = n.label ∧ (t n).key = n.key) (l k : String) :
    (ns.map t).any (fun n => n.label == l && n.key == k) =
      ns.any (fun n => n.label == l && n.key == k) := by
  induction ns with
  | nil => simp
  | cons n rest ih => simp [List.any_cons, (ht n).1, (ht n).2, ih]

theorem filter_label_map (ns : List Node) (t : Node → Node)
    (ht : ∀ n, (t n).label = n.label ∧ (t n).key = n.key) (l : String) :
    ((ns.map t).filter (fun n => n.label == l)).length =
      (ns.filter (fun n => n.label == l)).length := by
  induction ns with
  | nil => simp
  | cons n rest ih =>
    by_cases hc : (n.label == l) = true
    · simp [List.filter_cons, (ht n).1, hc, ih]
    · simp only [Bool.not_eq_true] at hc
      simp [List.filter_cons, (ht n).1, hc, ih]

theorem setIf_label_key (l k : String) (ps : List (String × Cell)) (n : Node) :
    ((if n.label == l && n.key == k then setNodeProps n ps else n).label
        = n.label) ∧
    ((if n.label == l && n.key == k then setNodeProps n ps else n).key
        = n.key) := by
  by_cases hc : (n.label == l && n.key == k) = true
  · simp [hc, setNodeProps_label, setNodeProps_key]
  · simp only [Bool.not_eq_true] at hc
    simp [hc]

theorem nodeExists_applyOp_setP (g : Graph) (l k l' k' : String)
    (ps : List (String × Cell)) :
    nodeExists (applyOp g (GOp.setP l k ps)) l' k' = nodeExists g l' k' := by
  simp only [applyOp, nodeExists]
  exact any_label_key_map g.nodes _ (setIf_label_key l k ps) l' k'

theorem nodeExists_applyOp_mergeE (g : Graph)
    (rt sl sk dl dk l' k' : String) :
    nodeExists (applyOp g (GOp.mergeE rt sl sk dl dk)) l' k' =
      nodeExists g l' k' := by
  simp only [applyOp, nodeExists]
  split <;> rfl

theorem edges_applyOp_mergeN (g : Graph) (l kp k : String) :
    (applyOp g (GOp.mergeN l kp k)).edges = g.edges := by
  simp only [applyOp]
  split <;> rfl

theorem edges_applyOp_setP (g : Graph) (l k : String)
    (ps : List (String × Cell)) :
    (applyOp g (GOp.setP l k ps)).edges = g.edges := rfl

theorem nodes_applyOp_mergeE (g : Graph) (rt sl sk dl dk : String) :
    (applyOp g (GOp.mergeE rt sl sk dl dk)).nodes = g.nodes := by
  simp only [applyOp]
  split <;> rfl

theorem nodeExists_applyOp_mono (g : Graph) (o : GOp) (l k : String)
    (h : nodeExists g l k = true) : nodeExists (applyOp g o) l k = true := by
  cases o with
  | mergeN l' kp' k' =>
    simp only [applyOp]
    split
    · exact h
    · simp only [nodeExists, List.any_append]
      simp only [nodeExists] at h
      simp [h]
  | setP l' k' ps => rw [nodeExists_applyOp_setP]; exact h
  | mergeE rt sl sk dl dk => rw [nodeExists_applyOp_mergeE]; exact h

theorem nodeExists_applyOp_mergeN (g : Graph) (l kp k : String) :
    nodeExists (applyOp g (GOp.mergeN l kp k)) l k = true := by
  simp only [applyOp]
  split
  · assumption
  · simp [nodeExists, List.any_append]

theorem nodeExists_applyOps_mono (ops : List GOp) (g : Graph) (l k : String)
    (h : nodeExists g l k = true) : nodeExists (applyOps g ops) l k = true := by
  induction ops generalizing g with
  | nil => exact h
  | cons o rest ih =>
    exact ih (applyOp g o) (nodeExists_applyOp_mono g o l k h)

theorem count_nodes_le_applyOp (g : Graph) (o : GOp) (l : String) :
    count_nodes g l ≤ count_nodes (applyOp g o) l := by
  cases o with
  | mergeN l' kp' k' =>
    simp only [applyOp]
    split
    · exact Nat.le_refl _
    · simp only [count_nodes, List.filter_append, List.length_append]
      exact Nat.le_add_right _ _
  | setP l' k' ps =>
    simp only [applyOp, count_nodes]
    rw [filter_label_map g.nodes _ (setIf_label_key l' k' ps) l]
  | mergeE rt sl sk dl dk =>
    simp only [count_nodes, nodes_applyOp_mergeE]
    exact Nat.le_refl _

theorem count_nodes_le_applyOps (ops : List GOp) (g : Graph) (l : String) :
    count_nodes g l ≤ count_nodes (applyOps g ops) l := by
  induction ops generalizing g with
  | nil => exact Nat.le_refl _
  | cons o rest ih =>
    exact Nat.le_trans (count_nodes_le_applyOp g o l) (ih (applyOp g o))

theorem nodeExists_imp_count_pos (g : Graph) (l k : String)
    (h : nodeExists g l k = true) : 0 < count_nodes g l := by
  simp only [nodeExists, List.any_eq_true] at h
  obtain ⟨n, hn, hp⟩ := h
  have hl : (n.label == l) = true := by
    have hp' := hp
    simp only [Bool.and_eq_true] at hp'
    exact hp'.1
  have : n ∈ g.nodes.filter (fun n => n.label == l) :=
    List.mem_filter.mpr ⟨hn, hl⟩
  exact List.length_pos.mpr (List.ne_nil_of_mem this)

theorem count_pos_applyOps_of_mergeN_mem (ops : List GOp) (g : Graph)
    (l kp k : String) (hmem : GOp.mergeN l kp k ∈ ops) :
    0 < count_nodes (applyOps g ops) l := by
  induction ops generalizing g with
  | nil => cases hmem
  | cons o rest ih =>
    cases List.mem_cons.mp hmem with
    | inl ho =>
      subst ho
      have hex : nodeExists (applyOp g (GOp.mergeN l kp k)) l k = true :=
        nodeExists_applyOp_mergeN g l kp k
      have hpos := nodeExists_imp_count_pos _ l k hex
      exact Nat.lt_of_lt_of_le hpos
        (count_nodes_le_applyOps rest (applyOp g (GOp.mergeN l kp k)) l)
    | inr ho => exact ih (applyOp g o) ho

theorem count_nodes_le_runBatch {ρ : Type} (f : ρ → List GOp)
    (rows : List ρ) (g : Graph) (l : String) :
    count_nodes g l ≤ count_nodes (runBatch f g rows) l := by
  induction rows generalizing g with
  | nil => exact Nat.le_refl _
  | cons r rest ih =>
    exact Nat.le_trans (count_nodes_le_applyOps (f r) g l)
      (ih (applyOps g (f r)))

theorem nodeExists_runBatch_mono {ρ : Type} (f : ρ → List GOp)
    (rows : List ρ) (g : Graph) (l k : String)
    (h : nodeExists g l k = true) :
    nodeExists (runBatch f g rows) l k = true := by
  induction rows generalizing g with
  | nil => exact h
  | cons r rest ih =>
    exact ih (applyOps g (f r)) (nodeExists_applyOps_mono (f r) g l k h)

theorem count_pos_runBatch_head {ρ : Type} (f : ρ → List GOp)
    (r : ρ) (rest : List ρ) (g : Graph) (l kp k : String)
    (hmem : GOp.mergeN l kp k ∈ f r) :
    0 < count_nodes (runBatch f g (r :: rest)) l := by
  have h1 : 0 < count_nodes (applyOps g (f r)) l :=
    count_pos_applyOps_of_mergeN_mem (f r) g l kp k hmem
  exact Nat.lt_of_lt_of_le h1
    (count_nodes_le_runBatch f rest (applyOps g (f r)) l)

theorem gatedLoad_idem {ρ : Type} (label : String) (f : ρ → List GOp)
    (hmerge : ∀ r : ρ, ∃ kp k, GOp.mergeN label kp k ∈ f r)
    (g : Graph) (rows : List ρ) :
    (gatedLoad label f (gatedLoad label f g rows).1 rows).1 =
      (gatedLoad label f g rows).1 := by
  by_cases hg : already_loaded g label = true
  · simp [gatedLoad, hg]
  · simp only [Bool.not_eq_true] at hg
    cases rows with
    | nil => simp [gatedLoad, hg, runBatch]
    | cons r rest =>
      obtain ⟨kp, k, hmem⟩ := hmerge r
      have hpos : 0 < count_nodes (runBatch f g (r :: rest)) label :=
        count_pos_runBatch_head f r rest g label kp k hmem
      have hgate : already_loaded (runBatch f g (r :: rest)) label = true := by
        simp [already_loaded, hpos]
      simp [gatedLoad, hg, hgate]

theorem applyOps_nodes_len_eq (ops : List GOp) (g : Graph)
    (h : ∀ p ∈ mergeKeys ops, nodeExists g p.1 p.2 = true) :
    (applyOps g ops).nodes.length = g.nodes.length := by
  induction ops generalizing g with
  | nil => rfl
  | cons o rest ih =>
    cases o with
    | mergeN l kp k =>
      have hex : nodeExists g l k = true := by
        apply h (l, k)
        simp [mergeKeys]
      have hstep : applyOp g (GOp.mergeN l kp k) = g := by
        simp [applyOp, hex]
      rw [show applyOps g (GOp.mergeN l kp k :: rest)
            = applyOps (applyOp g (GOp.mergeN l kp k)) rest from rfl, hstep]
      apply ih
      intro p hp
      apply h
      simp [mergeKeys] at hp ⊢
      exact Or.inr hp
    | setP l k ps =>
      rw [show applyOps g (GOp.setP l k ps :: rest)
            = applyOps (applyOp g (GOp.setP l k ps)) rest from rfl]
      have hlen : (applyOp g (GOp.setP l k ps)).nodes.length
          = g.nodes.length := by
        simp [applyOp]
      rw [ih (applyOp g (GOp.setP l k ps)) ?_, hlen]
      intro p hp
      rw [nodeExists_applyOp_setP]
      apply h
      simpa [mergeKeys] using hp
    | mergeE rt sl sk dl dk =>
      rw [show applyOps g (GOp.mergeE rt sl sk dl dk :: rest)
            = applyOps (applyOp g (GOp.mergeE rt sl sk dl dk)) rest from rfl]
      have hlen : (applyOp g (GOp.mergeE rt sl sk dl dk)).nodes.length
          = g.nodes.length := by
        rw [nodes_applyOp_mergeE]
      rw [ih (applyOp g (GOp.mergeE rt sl sk dl dk)) ?_, hlen]
      intro p hp
      rw [nodeExists_applyOp_mergeE]
      apply h
      simpa [mergeKeys] using hp

theorem applyOps_creates_mergeKeys (ops : List GOp) (g : Graph) :
    ∀ p ∈ mergeKeys ops, nodeExists (applyOps g ops) p.1 p.2 = true := by
  induction ops generalizing g with
  | nil => intro p hp; cases hp
  | cons o rest ih =>
    intro p hp
    cases o with
    | mergeN l kp k =>
      simp only [mergeKeys, List.filterMap_cons] at hp
      simp only [List.mem_cons] at hp
      cases hp with
      | inl heq =>
        subst heq
        exact nodeExists_applyOps_mono rest _ l k
          (nodeExists_applyOp_mergeN g l kp k)
      | inr htail => exact ih (applyOp g (GOp.mergeN l kp k)) p htail
    | setP l k ps =>
      simp only [mergeKeys, List.filterMap_cons] at hp
      exact ih (applyOp g (GOp.setP l k ps)) p hp
    | mergeE rt sl sk dl dk =>
      simp only [mergeKeys, List.filterMap_cons] at hp
      exact ih (applyOp g (GOp.mergeE rt sl sk dl dk)) p hp

theorem runBatch_all_keys_exist {ρ : Type} (f : ρ → List GOp)
    (rows : List ρ) (g : Graph) :
    ∀ r ∈ rows, ∀ p ∈ mergeKeys (f r),
      nodeExists (runBatch f g rows) p.1 p.2 = true := by
  induction rows generalizing g with
  | nil => intro r hr; cases hr
  | cons r0 rest ih =>
    intro r hr p hp
    cases List.mem_cons.mp hr with
    | inl heq =>
      subst heq
      exact nodeExists_runBatch_mono f rest (applyOps g (f r)) p.1 p.2
        (applyOps_creates_mergeKeys (f r) g p hp)
    | inr htail => exact ih (applyOps g (f r0)) r htail p hp

theorem runBatch_nodes_len_eq {ρ : Type} (f : ρ → List GOp)
    (rows : List ρ) (g : Graph)
    (h : ∀ r ∈ rows, ∀ p ∈ mergeKeys (f r), nodeExists g p.1 p.2 = true) :
    (runBatch f g rows).nodes.length = g.nodes.length := by
  induction rows generalizing g with
  | nil => rfl
  | cons r rest ih =>
    have h0 : (applyOps g (f r)).nodes.length = g.nodes.length :=
      applyOps_nodes_len_eq (f r) g (h r (List.mem_cons_self r rest))
    have hrest : ∀ r' ∈ rest, ∀ p ∈ mergeKeys (f r'),
        nodeExists (applyOps g (f r)) p.1 p.2 = true := by
      intro r' hr' p hp
      exact nodeExists_applyOps_mono (f r) g p.1 p.2
        (h r' (List.mem_cons_of_mem r hr') p hp)
    rw [show runBatch f g (r :: rest)
          = runBatch f (applyOps g (f r)) rest from rfl]
    rw [ih (applyOps g (f r)) hrest, h0]

theorem runBatch_twice_nodes_len {ρ : Type} (f : ρ → List GOp)
    (g : Graph) (rows : List ρ) :
    (runBatch f (runBatch f g rows) rows).nodes.length =
      (runBatch f g rows).nodes.length :=
  runBatch_nodes_len_eq f rows (runBatch f g rows)
    (runBatch_all_keys_exist f rows g)

theorem danglingFreeB_transfer (g g' : Graph)
    (hedges : g'.edges = g.edges)
    (hnodes : ∀ l k, nodeExists g l k = true → nodeExists g' l k = true)
    (hg : danglingFreeB g = true) : danglingFreeB g' = true := by
  simp only [danglingFreeB, List.all_eq_true] at hg ⊢
  intro e he
  rw [hedges] at he
  have := hg e he
  simp only [Bool.and_eq_true] at this ⊢
  exact ⟨hnodes _ _ this.1, hnodes _ _ this.2⟩

theorem keyMerged_cons (l0 k0 : String) (acc : List (String × String))
    (l k : String) :
    keyMerged ((l0, k0) :: acc) l k =
      ((l0 == l && k0 == k) || keyMerged acc l k) := by
  simp [keyMerged, List.any_cons]

theorem applyOps_safe_danglingFree (ops : List GOp) (g : Graph)
    (acc : List (String × String))
    (hsafe : opsSafe acc ops = true)
    (hacc : ∀ l k, keyMerged acc l k = true → nodeExists g l k = true)
    (hg : danglingFreeB g = true) :
    danglingFreeB (applyOps g ops) = true := by
  induction ops generalizing g acc with
  | nil => exact hg
  | cons o rest ih =>
    cases o with
    | mergeN l kp k =>
      have hsafe' : opsSafe ((l, k) :: acc) rest = true := hsafe
      refine ih (applyOp g (GOp.mergeN l kp k)) ((l, k) :: acc) hsafe' ?_ ?_
      · intro l' k' hm
        rw [keyMerged_cons] at hm
        rcases Bool.or_eq_true_iff.mp hm with hhead | htail
        · simp only [Bool.and_eq_true] at hhead
          have hl : l = l' := by
            have := hhead.1
            exact eq_of_beq this
          have hk : k = k' := by
            have := hhead.2
            exact eq_of_beq this
          subst hl; subst hk
          exact nodeExists_applyOp_mergeN g l kp k
        · exact nodeExists_applyOp_mono g _ l' k' (hacc l' k' htail)
      · exact danglingFreeB_transfer g _ (edges_applyOp_mergeN g l kp k)
          (fun l' k' => nodeExists_applyOp_mono g _ l' k') hg
    | setP l k ps =>
      have hsafe' : opsSafe acc rest = true := hsafe
      refine ih (applyOp g (GOp.setP l k ps)) acc hsafe' ?_ ?_
      · intro l' k' hm
        rw [nodeExists_applyOp_setP]
        exact hacc l' k' hm
      · exact danglingFreeB_transfer g _ (edges_applyOp_setP g l k ps)
          (fun l' k' h => by rw [nodeExists_applyOp_setP]; exact h) hg
    | mergeE rt sl sk dl dk =>
      have hsafe0 : (keyMerged acc sl sk && keyMerged acc dl dk
          && opsSafe acc rest) = true := hsafe
      simp only [Bool.and_eq_true] at hsafe0
      obtain ⟨⟨hsrc, hdst⟩, hrest⟩ := hsafe0
      have hsrcEx := hacc sl sk hsrc
      have hdstEx := hacc dl dk hdst
      refine ih (applyOp g (GOp.mergeE rt sl sk dl dk)) acc hrest ?_ ?_
      · intro l' k' hm
        rw [nodeExists_applyOp_mergeE]
        exact hacc l' k' hm
      · simp only [danglingFreeB, List.all_eq_true] at hg ⊢
        intro e he
        rw [nodeExists_applyOp_mergeE, nodeExists_applyOp_mergeE]
        simp only [applyOp] at he
        by_cases hc : g.edges.contains (Edge.mk rt sl sk dl dk)
        · simp only [hc, if_true] at he
          exact hg e he
        · simp only [hc, if_false] at he
          rcases List.mem_append.mp he with hold | hnew
          · exact hg e hold
          · have : e = Edge.mk rt sl sk dl dk := List.mem_singleton.mp hnew
            subst this
            simp only [Bool.and_eq_true]
            exact ⟨hsrcEx, hdstEx⟩

theorem runBatch_danglingFree {ρ : Type} (f : ρ → List GOp)
    (hsafe : ∀ r : ρ, opsSafe [] (f r) = true)
    (rows : List ρ) (g : Graph) (hg : danglingFreeB g = true) :
    danglingFreeB (runBatch f g rows) = true := by
  induction rows generalizing g with
  | nil => exact hg
  | cons r rest ih =>
    refine ih (applyOps g (f r)) ?_
    refine applyOps_safe_danglingFree (f r) g [] (hsafe r) ?_ hg
    intro l k hm
    simp [keyMerged] at hm

theorem opsSafe_encounterOps (r : EncounterRow) :
    opsSafe [] (encounterOps r) = true := by
  simp [encounterOps, opsSafe, keyMerged]

theorem opsSafe_conditionOps (r : ConditionRow) :
    opsSafe [] (conditionOps r) = true := by
  simp [conditionOps, opsSafe, keyMerged]

theorem opsSafe_medicationOps (r : MedicationRow) :
    opsSafe [] (medicationOps r) = true := by
  simp [medicationOps, opsSafe, keyMerged]

theorem opsSafe_patientOps (r : PatientRow) :
    opsSafe [] (patientOps r) = true := by
  simp [patientOps, opsSafe]

theorem opsSafe_providerOps (r : ProviderRow) :
    opsSafe [] (providerOps r) = true := by
  simp [providerOps, opsSafe]

theorem opsSafe_obsOps (r : ObservationRow) :
    opsSafe [] (obsOps r) = true := by
  cases hoid : r.obs_id with
  | none => simp [obsOps, hoid, opsSafe]
  | some oid =>
    cases hpid : r.pid with
    | none => simp [obsOps, hoid, hpid, opsSafe]
    | some pid =>
      cases henc : r.enc_id with
      | none => simp [obsOps, hoid, hpid, henc, opsSafe, keyMerged]
      | some eid => simp [obsOps, hoid, hpid, henc, opsSafe, keyMerged]

theorem obs_foldl_filter (rows : List ObservationRow) (g : Graph) (n : Nat) :
    rows.foldl obsStep (g, n) =
      (runBatch obsOps g (rows.filter obsValid),
        n + (rows.filter obsValid).length) := by
  induction rows generalizing g n with
  | nil => simp [runBatch]
  | cons r rest ih =>
    by_cases hskip : (r.obs_id.isNone || r.pid.isNone) = true
    · have hval : obsValid r = false := by
        simp only [obsValid, hskip, Bool.not_true]
      rw [show (r :: rest).foldl obsStep (g, n)
            = rest.foldl obsStep (obsStep (g, n) r) from rfl]
      simp only [obsStep, hskip, if_true]
      rw [ih g n]
      simp [List.filter_cons, hval]
    · simp only [Bool.not_eq_true] at hskip
      have hval : obsValid r = true := by
        simp only [obsValid, hskip, Bool.not_false]
      rw [show (r :: rest).foldl obsStep (g, n)
            = rest.foldl obsStep (obsStep (g, n) r) from rfl]
      simp only [obsStep, hskip]
      rw [if_neg (by simp : ¬ false = true)]
      rw [ih (applyOps g (obsOps r)) (n + 1)]
      simp only [List.filter_cons, hval, if_true, Prod.mk.injEq,
        List.length_cons]
      exact ⟨rfl, by omega⟩

theorem mem_insertByLe {α : Type} (le : α → α → Bool) (a x : α)
    (l : List α) (h : a ∈ insertByLe le x l) : a = x ∨ a ∈ l := by
  induction l with
  | nil =>
    simp only [insertByLe, List.mem_singleton] at h
    exact Or.inl h
  | cons b bs ih =>
    simp only [insertByLe] at h
    by_cases hc : le x b = true
    · rw [if_pos hc] at h
      simp only [List.mem_cons] at h
      rcases h with h1 | h1 | h1
      · exact Or.inl h1
      · exact Or.inr (by simp [h1])
      · exact Or.inr (List.mem_cons_of_mem b h1)
    · rw [if_neg hc] at h
      simp only [List.mem_cons] at h
      rcases h with h1 | h1
      · exact Or.inr (by simp [h1])
      · rcases ih h1 with h2 | h2
        · exact Or.inl h2
        · exact Or.inr (List.mem_cons_of_mem b h2)

theorem mem_sortByLe {α : Type} (le : α → α → Bool) (a : α) (l : List α)
    (h : a ∈ sortByLe le l) : a ∈ l := by
  induction l with
  | nil => simp only [sortByLe, List.foldr_nil] at h; cases h
  | cons b bs ih =>
    simp only [sortByLe, List.foldr_cons] at h
    rcases mem_insertByLe le a b _ h with h1 | h1
    · simp [h1]
    · exact List.mem_cons_of_mem b (ih h1)

/-!
Claim theorems.
-/

/-- C7: for every entity type, the LoadStateGate (`already_loaded`)
returns true iff at least one node of that type already exists in the
graph store, and whenever it returns true the corresponding load is a
no-op: zero upserts and the graph unchanged, regardless of the incoming
batch. -/
theorem load_state_gate_skips :
    (∀ g l, already_loaded g l = true ↔ 0 < count_nodes g l)
    ∧ (∀ g rows, already_loaded g "Patient" = true →
        load_patients g rows = (g, 0))
    ∧ (∀ g rows, already_loaded g "Provider" = true →
        load_providers g rows = (g, 0))
    ∧ (∀ g rows, already_loaded g "Encounter" = true →
        load_encounters g rows = (g, 0))
    ∧ (∀ g rows, already_loaded g "Condition" = true →
        load_conditions g rows = (g, 0))
    ∧ (∀ g rows, already_loaded g "Medication" = true →
        load_medications g rows = (g, 0))
    ∧ (∀ g rows, already_loaded g "Observation" = true →
        load_observations g rows = (g, 0)) := by
  refine ⟨?_, ?_, ?_, ?_, ?_, ?_, ?_⟩
  · intro g l
    constructor
    · intro h; exact of_decide_eq_true h
    · intro h; exact decide_eq_true h
  · intro g rows h; simp [load_patients, gatedLoad, h]
  · intro g rows h; simp [load_providers, gatedLoad, h]
  · intro g rows h; simp [load_encounters, gatedLoad, h]
  · intro g rows h; simp [load_conditions, gatedLoad, h]
  · intro g rows h; simp [load_medications, gatedLoad, h]
  · intro g rows h; simp [load_observations, h]

/-- Witness for C7 at a concrete store that already holds one Provider
node: the gate fires and the provider load is a no-op on a fresh batch. -/
theorem load_state_gate_skips_witness :
    already_loaded gProv "Provider" = true ∧
      load_providers gProv [provRowEx2] = (gProv, 0) :=
  ⟨by decide, load_state_gate_skips.2.2.1 gProv [provRowEx2] (by decide)⟩

/-- C8: applying the same batch twice yields the same node count as
applying it once, for all entity types. The first conjunct is the
row-level reason: re-running any batch of per-row merge programs over a
store adds no nodes the second time, because every merged natural key
already exists after the first run; the remaining conjuncts state that
each of the six loaders leaves the graph store unchanged when re-applied
to its own output with the identical batch. -/
theorem load_twice_same_node_count :
    (∀ (ρ : Type) (f : ρ → List GOp) (g : Graph) (rows : List ρ),
      (runBatch f (runBatch f g rows) rows).nodes.length =
        (runBatch f g rows).nodes.length)
    ∧ (∀ g rows, (load_patients (load_patients g rows).1 rows).1 =
        (load_patients g rows).1)
    ∧ (∀ g rows, (load_providers (load_providers g rows).1 rows).1 =
        (load_providers g rows).1)
    ∧ (∀ g rows, (load_encounters (load_encounters g rows).1 rows).1 =
        (load_encounters g rows).1)
    ∧ (∀ g rows, (load_conditions (load_conditions g rows).1 rows).1 =
        (load_conditions g rows).1)
    ∧ (∀ g rows, (load_medications (load_medications g rows).1 rows).1 =
        (load_medications g rows).1)
    ∧ (∀ g rows, (load_observations (load_observations g rows).1 rows).1 =
        (load_observations g rows).1) := by
  refine ⟨?_, ?_, ?_, ?_, ?_, ?_, ?_⟩
  · intro ρ f g rows; exact runBatch_twice_nodes_len f g rows
  · intro g rows
    simpa [load_patients] using
      gatedLoad_idem "Patient" patientOps
        (fun r => ⟨"id", r.pid, by simp [patientOps]⟩) g rows
  · intro g rows
    simpa [load_providers] using
      gatedLoad_idem "Provider" providerOps
        (fun r => ⟨"id", r.pid, by simp [providerOps]⟩) g rows
  · intro g rows
    simpa [load_encounters] using
      gatedLoad_idem "Encounter" encounterOps
        (fun r => ⟨"id", r.enc_id, by simp [encounterOps]⟩) g rows
  · intro g rows
    simpa [load_conditions] using
      gatedLoad_idem "Condition" conditionOps
        (fun r => ⟨"code", r.code, by simp [conditionOps]⟩) g rows
  · intro g rows
    simpa [load_medications] using
      gatedLoad_idem "Medication" medicationOps
        (fun r => ⟨"code", r.code, by simp [medicationOps]⟩) g rows
  · intro g rows
    by_cases hgate : already_loaded g "Observation" = true
    · simp [load_observations, hgate]
    · simp only [Bool.not_eq_true] at hgate
      have hload : load_observations g rows =
          (runBatch obsOps g (rows.filter obsValid),
            0 + (rows.filter obsValid).length) := by
        unfold load_observations
        rw [if_neg (by simp [hgate])]
        exact obs_foldl_filter rows g 0
      cases hF : rows.filter obsValid with
      | nil =>
        have hid : (load_observations g rows).1 = g := by
          rw [hload, hF]; rfl
        rw [hid]; exact hid
      | cons r rs =>
        have hval : obsValid r = true := by
          have hmemf : r ∈ rows.filter obsValid := by
            rw [hF]; exact List.mem_cons_self r rs
          exact (List.mem_filter.mp hmemf).2
        cases hoid : r.obs_id with
        | none => rw [obsValid, hoid] at hval; simp at hval
        | some oid =>
          cases hpid : r.pid with
          | none => rw [obsValid, hoid, hpid] at hval; simp at hval
          | some pid =>
            have hmem : GOp.mergeN "Observation" "id" oid ∈ obsOps r := by
              simp [obsOps, hoid, hpid]
            have hpos :
                0 < count_nodes (runBatch obsOps g (r :: rs)) "Observation" :=
              count_pos_runBatch_head obsOps r rs g "Observation" "id" oid hmem
            have hgate2 :
                already_loaded (load_observations g rows).1 "Observation"
                  = true := by
              rw [hload, hF]
              exact decide_eq_true hpos
            generalize hG : (load_observations g rows).1 = G at hgate2 ⊢
            unfold load_observations
            rw [if_pos hgate2]

/-- C9: the per-row programs of the relationship-creating loaders merge
the row's own node and a stub node for every foreign reference before
merging any edge, so a dangling-free store stays dangling-free through
every load; moreover merging a stub (`MERGE` on an existing key) leaves
the store unchanged, so it never overwrites attributes of an existing
node. -/
theorem loader_referential_safety :
    (∀ g rows, danglingFreeB g = true →
        danglingFreeB (load_encounters g rows).1 = true)
    ∧ (∀ g rows, danglingFreeB g = true →
        danglingFreeB (load_conditions g rows).1 = true)
    ∧ (∀ g rows, danglingFreeB g = true →
        danglingFreeB (load_medications g rows).1 = true)
    ∧ (∀ g rows, danglingFreeB g = true →
        danglingFreeB (load_observations g rows).1 = true)
    ∧ (∀ g l kp k, nodeExists g l k = true →
        applyOp g (GOp.mergeN l kp k) = g) := by
  refine ⟨?_, ?_, ?_, ?_, ?_⟩
  · intro g rows hg
    by_cases hgate : already_loaded g "Encounter" = true
    · simpa [load_encounters, gatedLoad, hgate] using hg
    · simp only [Bool.not_eq_true] at hgate
      have : (load_encounters g rows).1 = runBatch encounterOps g rows := by
        simp [load_encounters, gatedLoad, hgate]
      rw [this]
      exact runBatch_danglingFree encounterOps opsSafe_encounterOps rows g hg
  · intro g rows hg
    by_cases hgate : already_loaded g "Condition" = true
    · simpa [load_conditions, gatedLoad, hgate] using hg
    · simp only [Bool.not_eq_true] at hgate
      have : (load_conditions g rows).1 = runBatch conditionOps g rows := by
        simp [load_conditions, gatedLoad, hgate]
      rw [this]
      exact runBatch_danglingFree conditionOps opsSafe_conditionOps rows g hg
  · intro g rows hg
    by_cases hgate : already_loaded g "Medication" = true
    · simpa [load_medications, gatedLoad, hgate] using hg
    · simp only [Bool.not_eq_true] at hgate
      have : (load_medications g rows).1 = runBatch medicationOps g rows := by
        simp [load_medications, gatedLoad, hgate]
      rw [this]
      exact runBatch_danglingFree medicationOps opsSafe_medicationOps rows g hg
  · intro g rows hg
    by_cases hgate : already_loaded g "Observation" = true
    · simpa [load_observations, hgate] using hg
    · simp only [Bool.not_eq_true] at hgate
      have : (load_observations g rows).1 =
          runBatch obsOps g (rows.filter obsValid) := by
        unfold load_observations
        rw [if_neg (by simp [hgate]), obs_foldl_filter rows g 0]
      rw [this]
      exact runBatch_danglingFree obsOps opsSafe_obsOps
        (rows.filter obsValid) g hg
  · intro g l kp k h
    simp [applyOp, h]

/-- Witness for C9: loading one encounter row into the empty store keeps
it dangling-free, and re-merging an existing Provider key leaves the
provider store untouched. -/
theorem loader_referential_safety_witness :
    danglingFreeB (load_encounters graphEmpty [encRowEx]).1 = true ∧
      applyOp gProv (GOp.mergeN "Provider" "id" "NPI1") = gProv :=
  ⟨loader_referential_safety.1 graphEmpty [encRowEx] (by decide),
   loader_referential_safety.2.2.2.2 gProv "Provider" "id" "NPI1" (by decide)⟩

/-- C10: during an Observation batch every fetched row whose observation
id or patient id is null is skipped before any graph operation and
processing continues with the remaining rows (the load equals the load
of the guarded sub-batch); the source query already excludes rows with a
null observation id; and the other five loaders have no such guard and
upsert every fetched row. -/
theorem observation_null_guard :
    (∀ g rows, already_loaded g "Observation" = false →
      load_observations g rows =
        (runBatch obsOps g (rows.filter obsValid),
          (rows.filter obsValid).length))
    ∧ (∀ tbl maxRows r, r ∈ obs_source_rows tbl maxRows → r.obs_id ≠ none)
    ∧ (∀ g rows, already_loaded g "Patient" = false →
        (load_patients g rows).2 = rows.length)
    ∧ (∀ g rows, already_loaded g "Provider" = false →
        (load_providers g rows).2 = rows.length)
    ∧ (∀ g rows, already_loaded g "Encounter" = false →
        (load_encounters g rows).2 = rows.length)
    ∧ (∀ g rows, already_loaded g "Condition" = false →
        (load_conditions g rows).2 = rows.length)
    ∧ (∀ g rows, already_loaded g "Medication" = false →
        (load_medications g rows).2 = rows.length) := by
  refine ⟨?_, ?_, ?_, ?_, ?_, ?_, ?_⟩
  · intro g rows h
    unfold load_observations
    rw [if_neg (by simp [h]), obs_foldl_filter rows g 0]
    simp
  · intro tbl maxRows r hmem
    have h1 : r ∈ sortByLe (fun a b => optDtLe a.obs_dt b.obs_dt)
        (tbl.filter (fun r => !r.obs_id.isNone)) :=
      List.take_subset _ _ hmem
    have h2 : r ∈ tbl.filter (fun r => !r.obs_id.isNone) :=
      mem_sortByLe _ r _ h1
    have h3 : (!r.obs_id.isNone) = true := (List.mem_filter.mp h2).2
    intro hEq
    rw [hEq] at h3
    simp at h3
  · intro g rows h; simp [load_patients, gatedLoad, h]
  · intro g rows h; simp [load_providers, gatedLoad, h]
  · intro g rows h; simp [load_encounters, gatedLoad, h]
  · intro g rows h; simp [load_conditions, gatedLoad, h]
  · intro g rows h; simp [load_medications, gatedLoad, h]

/-- Witness for C10 at a concrete batch with one valid and one
null-patient row: the load equals the load of the filtered sub-batch,
and a patient batch is processed in full. -/
theorem observation_null_guard_witness :
    load_observations graphEmpty [obsRowValid, obsRowNull] =
      (runBatch obsOps graphEmpty
        ([obsRowValid, obsRowNull].filter obsValid),
        ([obsRowValid, obsRowNull].filter obsValid).length) ∧
      (load_patients graphEmpty [aliceRow]).2 = [aliceRow].length :=
  ⟨observation_null_guard.1 graphEmpty [obsRowValid, obsRowNull] (by decide),
   observation_null_guard.2.2.1 graphEmpty [aliceRow] (by decide)⟩

theorem runQuery_len_le (g : Graph) (q : CypherQuery) :
    (runQuery g q).length ≤ 50 := by
  cases q with
  | medsByPatient pid =>
    simp only [runQuery, qMedsByPatient]
    exact List.length_take_le _ _
  | medsByCondition term =>
    simp only [runQuery, qMedsByCondition]
    exact List.length_take_le _ _
  | patientsByCondition term =>
    simp only [runQuery, qPatientsByCondition]
    exact List.length_take_le _ _

theorem router_fallback_aux (exec : CypherQuery → Except String (List Rec))
    (question : String) (h : matchesIntent question = false) :
    answer_question_from_aura_live exec question =
      Except.ok (RouterResult.mk helpText none []) := by
  simp only [answer_question_from_aura_live]
  by_cases h1 : strContains (normalizeQ question) "medications for patient"
      = true
  · simp [matchesIntent, h1] at h
  · rw [if_neg h1]
    by_cases h2 : (strContains (normalizeQ question) "medications for" ||
        strContains (normalizeQ question) "medication for") = true
    · simp only [matchesIntent, h2] at h
      simp at h
    · rw [if_neg h2]
      by_cases h3 : (strContains (normalizeQ question) "patients with" ||
          strStartsW (normalizeQ question) "show patients" ||
          strStartsW (normalizeQ question) "list patients") = true
      · simp only [matchesIntent, h3] at h
        simp at h
      · rw [if_neg h3]

/-- C1: for every question whose normalized text contains both the
trigger phrase "medications for patient" and the trigger phrase
"patients with", the router deterministically selects the
medications-by-patient intent: the matchers are tried in a fixed order
and the first trigger that is a substring of the question wins. -/
theorem router_priority_meds_by_patient (g : Graph) (question : String)
    (h1 : strContains (normalizeQ question) "medications for patient" = true)
    (h2 : strContains (normalizeQ question) "patients with" = true) :
    Except.map RouterResult.queriesExecuted
        (answer_question_from_aura_live (graphExec g) question) =
      Except.ok [CypherQuery.medsByPatient (extractPid (normalizeQ question))]
    := by
  simp only [answer_question_from_aura_live]
  rw [if_pos h1]
  simp only [graphExec]
  by_cases hE : (runQuery g
      (CypherQuery.medsByPatient (extractPid (normalizeQ question)))).isEmpty
        = true
  · rw [if_pos hE]; rfl
  · rw [if_neg hE]; rfl

/-- Witness for C1: a question containing both trigger phrases routes to
the medications-by-patient query. -/
theorem router_priority_meds_by_patient_witness :
    Except.map RouterResult.queriesExecuted
        (answer_question_from_aura_live (graphExec graphEmpty)
          "show medications for patient p001 and patients with diabetes") =
      Except.ok [CypherQuery.medsByPatient (extractPid (normalizeQ
        "show medications for patient p001 and patients with diabetes"))] :=
  router_priority_meds_by_patient graphEmpty
    "show medications for patient p001 and patients with diabetes"
    (by decide) (by decide)

/-- C6: when no intent matcher fires on the question, the router returns
the fixed enumeration of supported question forms, no table, and records
zero executed queries; the result does not depend on the executor, so no
query is run. -/
theorem router_unmatched_fixed_help
    (exec : CypherQuery → Except String (List Rec)) (question : String)
    (h : matchesIntent question = false) :
    answer_question_from_aura_live exec question =
      Except.ok (RouterResult.mk helpText none []) :=
  router_fallback_aux exec question h

/-- Witness for C6: the question "glorb" matches nothing and yields the
help enumeration with no table against a populated store. -/
theorem router_unmatched_fixed_help_witness :
    matchesIntent "glorb" = false ∧
      answer_question_from_aura_live (graphExec gAlice) "glorb" =
        Except.ok (RouterResult.mk helpText none []) :=
  ⟨by decide, router_unmatched_fixed_help (graphExec gAlice) "glorb" (by decide)⟩

/-- Corrected C2: the router supports exactly three intents —
patients-by-condition, medications-by-condition, medications-by-patient
(these are the only constructors of `CypherQuery`, each reachable and
each mapping to one query shape) — every routed question dispatches at
most one structured query, and every executed query is capped at 50
rows. -/
theorem router_three_intents_cap :
    (Except.map RouterResult.queriesExecuted
        (answer_question_from_aura_live (graphExec graphEmpty)
          "show medications for patient p001") =
      Except.ok [CypherQuery.medsByPatient "P001"])
    ∧ (Except.map RouterResult.queriesExecuted
        (answer_question_from_aura_live (graphExec graphEmpty)
          "show medications for diabetes") =
      Except.ok [CypherQuery.medsByCondition "diabetes"])
    ∧ (Except.map RouterResult.queriesExecuted
        (answer_question_from_aura_live (graphExec graphEmpty)
          "show patients with diabetes") =
      Except.ok [CypherQuery.patientsByCondition "diabetes"])
    ∧ (∀ g question r,
        answer_question_from_aura_live (graphExec g) question =
          Except.ok r →
        r.queriesExecuted.length ≤ 1 ∧ frameRows r.table ≤ 50) := by
  refine ⟨by rfl, by rfl, by rfl, ?_⟩
  intro g question r hr
  simp only [answer_question_from_aura_live, graphExec] at hr
  by_cases h1 : strContains (normalizeQ question) "medications for patient"
      = true
  · rw [if_pos h1] at hr
    by_cases hE : (runQuery g (CypherQuery.medsByPatient
        (extractPid (normalizeQ question)))).isEmpty = true
    · rw [if_pos hE] at hr
      injection hr with hr'
      subst hr'
      exact ⟨by simp, by simp [frameRows]⟩
    · rw [if_neg hE] at hr
      injection hr with hr'
      subst hr'
      refine ⟨by simp, ?_⟩
      simp only [frameRows, List.length_map]
      exact runQuery_len_le g _
  · rw [if_neg h1] at hr
    by_cases h2 : (strContains (normalizeQ question) "medications for" ||
        strContains (normalizeQ question) "medication for") = true
    · rw [if_pos h2] at hr
      by_cases hE : (runQuery g (CypherQuery.medsByCondition
          (extractMedPhrase (normalizeQ question)))).isEmpty = true
      · rw [if_pos hE] at hr
        injection hr with hr'
        subst hr'
        exact ⟨by simp, by simp [frameRows]⟩
      · rw [if_neg hE] at hr
        injection hr with hr'
        subst hr'
        refine ⟨by simp, ?_⟩
        simp only [frameRows, List.length_map]
        exact runQuery_len_le g _
    · rw [if_neg h2] at hr
      by_cases h3 : (strContains (normalizeQ question) "patients with" ||
          strStartsW (normalizeQ question) "show patients" ||
          strStartsW (normalizeQ question) "list patients") = true
      · rw [if_pos h3] at hr
        by_cases hE : (runQuery g (CypherQuery.patientsByCondition
            (extractCondPhrase (normalizeQ question)))).isEmpty = true
        · rw [if_pos hE] at hr
          injection hr with hr'
          subst hr'
          exact ⟨by simp, by simp [frameRows]⟩
        · rw [if_neg hE] at hr
          injection hr with hr'
          subst hr'
          refine ⟨by simp, ?_⟩
          simp only [frameRows, List.length_map]
          exact runQuery_len_le g _
      · rw [if_neg h3] at hr
        injection hr with hr'
        subst hr'
        exact ⟨by simp, by simp [frameRows]⟩

/-- Counterexample to C2 as stated: there is no encounters-by-patient
intent — a question asking for encounters of a patient falls through to
the help enumeration with zero executed queries even though the store
holds an Encounter node. -/
theorem router_no_encounters_intent_ce :
    answer_question_from_aura_live (graphExec gEnc)
        "show encounters for patient p1" =
      Except.ok (RouterResult.mk helpText none []) ∧
    count_nodes gEnc "Encounter" = 1 :=
  ⟨by rfl, by rfl⟩

/-- Witness for the corrected C2 at a concrete routed question. -/
theorem router_three_intents_cap_witness :
    (RouterResult.mk
      "I couldn\x27t find patients with conditions matching **\x27diabetes\x27**."
      none [CypherQuery.patientsByCondition "diabetes"]).queriesExecuted.length
        ≤ 1 ∧
    frameRows (RouterResult.mk
      "I couldn\x27t find patients with conditions matching **\x27diabetes\x27**."
      none [CypherQuery.patientsByCondition "diabetes"]).table ≤ 50 :=
  router_three_intents_cap.2.2.2 graphEmpty "show patients with diabetes" _
    (by rfl)

/-- Corrected C3: for the single patient-scoped intent
(medications-by-patient), the extracted parameter is stripped and
upper-cased and is always used as an exact patient-id match — the query
shape is `CypherQuery.medsByPatient`, which filters on id equality —
with no hyphen-based disambiguation and no partial, case-insensitive
display-name matching. -/
theorem router_patient_param_exact_id (g : Graph) (question : String)
    (h : strContains (normalizeQ question) "medications for patient" = true) :
    Except.map RouterResult.queriesExecuted
        (answer_question_from_aura_live (graphExec g) question) =
      Except.ok [CypherQuery.medsByPatient (extractPid (normalizeQ question))]
    := by
  simp only [answer_question_from_aura_live]
  rw [if_pos h]
  simp only [graphExec]
  by_cases hE : (runQuery g
      (CypherQuery.medsByPatient (extractPid (normalizeQ question)))).isEmpty
        = true
  · rw [if_pos hE]; rfl
  · rw [if_neg hE]; rfl

/-- Counterexample to C3 as stated: the hyphen-free parameter "alice" is
not matched against display names — the router queries the exact id
"ALICE" and finds nothing, although the store holds a patient whose
full name contains "alice" case-insensitively and who takes a
medication. -/
theorem router_no_name_matching_ce :
    answer_question_from_aura_live (graphExec gAlice)
        "show medications for patient alice" =
      Except.ok (RouterResult.mk
        "I couldn\x27t find medications for patient **ALICE**." none
        [CypherQuery.medsByPatient "ALICE"]) ∧
    strContains (strLower "Alice Nguyen") (strLower "alice") = true ∧
    qMedsByPatient gAlice "P1" ≠ [] :=
  ⟨by rfl, by decide, by decide⟩

/-- Witness for the corrected C3: a hyphenated parameter is upper-cased
and used as an exact id, the same treatment as any other parameter. -/
theorem router_patient_param_exact_id_witness :
    Except.map RouterResult.queriesExecuted
        (answer_question_from_aura_live (graphExec graphEmpty)
          "show medications for patient p-001") =
      Except.ok [CypherQuery.medsByPatient
        (extractPid (normalizeQ "show medications for patient p-001"))] ∧
    extractPid (normalizeQ "show medications for patient p-001") = "P-001" :=
  ⟨router_patient_param_exact_id graphEmpty
    "show medications for patient p-001" (by decide), by decide⟩

/-- Corrected C4: a failure raised while executing the structured query
is NOT caught inside the router — it propagates to the caller unchanged
(the Python function has no `except` clause); only a question matching
no intent avoids running a query and returns the help enumeration. -/
theorem router_error_propagation (e : String) (question : String) :
    (matchesIntent question = true →
      answer_question_from_aura_live (fun _ => Except.error e) question =
        Except.error e)
    ∧ (matchesIntent question = false →
      answer_question_from_aura_live (fun _ => Except.error e) question =
        Except.ok (RouterResult.mk helpText none [])) := by
  constructor
  · intro hm
    simp only [answer_question_from_aura_live]
    by_cases h1 : strContains (normalizeQ question) "medications for patient"
        = true
    · rw [if_pos h1]
    · rw [if_neg h1]
      by_cases h2 : (strContains (normalizeQ question) "medications for" ||
          strContains (normalizeQ question) "medication for") = true
      · rw [if_pos h2]
      · rw [if_neg h2]
        by_cases h3 : (strContains (normalizeQ question) "patients with" ||
            strStartsW (normalizeQ question) "show patients" ||
            strStartsW (normalizeQ question) "list patients") = true
        · rw [if_pos h3]
        · exfalso
          simp only [matchesIntent] at hm
          rw [Bool.not_eq_true] at h1 h2 h3
          rw [h1, h2, h3] at hm
          simp at hm
  · intro hm
    exact router_fallback_aux _ question hm

/-- Counterexample to C4 as stated: a failing executor's error surfaces
to the caller as a hard failure. -/
theorem router_error_propagates_ce :
    answer_question_from_aura_live (fun _ => Except.error "query failed")
        "show patients with diabetes" = Except.error "query failed" := by rfl

/-- Witness for the corrected C4 at a concrete matched question. -/
theorem router_error_propagation_witness :
    matchesIntent "show patients with diabetes" = true ∧
      answer_question_from_aura_live (fun _ => Except.error "boom")
          "show patients with diabetes" = Except.error "boom" :=
  ⟨by decide,
   (router_error_propagation "boom" "show patients with diabetes").1
     (by decide)⟩

/-- Corrected C5: whenever the routed query returns zero rows, the
router returns no table and a not-found message echoing the resolved
parameter; the concrete not-found message for "show patients with
diabetes" on a store with no matching Condition carries markdown
emphasis around the parameter (it is "I couldn\x27t find patients with
conditions matching **\x27diabetes\x27**.", not the plain-quoted form the
claim quotes). -/
theorem router_zero_rows_not_found :
    (∀ g question r q,
      answer_question_from_aura_live (graphExec g) question = Except.ok r →
      r.queriesExecuted = [q] → runQuery g q = [] →
      r.table = none ∧ strContains r.message (queryParam q) = true)
    ∧ (answer_question_from_aura_live (graphExec graphEmpty)
        "show patients with diabetes" =
      Except.ok (RouterResult.mk
        "I couldn\x27t find patients with conditions matching **\x27diabetes\x27**."
        none [CypherQuery.patientsByCondition "diabetes"])) := by
  refine ⟨?_, by rfl⟩
  intro g question r q hr hq hzero
  simp only [answer_question_from_aura_live, graphExec] at hr
  by_cases h1 : strContains (normalizeQ question) "medications for patient"
      = true
  · rw [if_pos h1] at hr
    by_cases hE : (runQuery g (CypherQuery.medsByPatient
        (extractPid (normalizeQ question)))).isEmpty = true
    · rw [if_pos hE] at hr
      injection hr with hr'
      subst hr'
      injection hq with hq1 hq2
      subst hq1
      exact ⟨rfl, strContains_mid _ _ _⟩
    · rw [if_neg hE] at hr
      injection hr with hr'
      subst hr'
      injection hq with hq1 hq2
      subst hq1
      rw [hzero] at hE
      simp at hE
  · rw [if_neg h1] at hr
    by_cases h2 : (strContains (normalizeQ question) "medications for" ||
        strContains (normalizeQ question) "medication for") = true
    · rw [if_pos h2] at hr
      by_cases hE : (runQuery g (CypherQuery.medsByCondition
          (extractMedPhrase (normalizeQ question)))).isEmpty = true
      · rw [if_pos hE] at hr
        injection hr with hr'
        subst hr'
        injection hq with hq1 hq2
        subst hq1
        refine ⟨rfl, ?_⟩
        simp only [queryParam]
        exact strContains_mid _ _ _
      · rw [if_neg hE] at hr
        injection hr with hr'
        subst hr'
        injection hq with hq1 hq2
        subst hq1
        rw [hzero] at hE
        simp at hE
    · rw [if_neg h2] at hr
      by_cases h3 : (strContains (normalizeQ question) "patients with" ||
          strStartsW (normalizeQ question) "show patients" ||
          strStartsW (normalizeQ question) "list patients") = true
      · rw [if_pos h3] at hr
        by_cases hE : (runQuery g (CypherQuery.patientsByCondition
            (extractCondPhrase (normalizeQ question)))).isEmpty = true
        · rw [if_pos hE] at hr
          injection hr with hr'
          subst hr'
          injection hq with hq1 hq2
          subst hq1
          refine ⟨rfl, ?_⟩
          simp only [queryParam]
          exact strContains_mid _ _ _
        · rw [if_neg hE] at hr
          injection hr with hr'
          subst hr'
          injection hq with hq1 hq2
          subst hq1
          rw [hzero] at hE
          simp at hE
      · rw [if_neg h3] at hr
        injection hr with hr'
        subst hr'
        simp at hq

/-- Counterexample to C5 as stated: the actual not-found message differs
from the claimed literal, which lacks the markdown emphasis markers. -/
theorem router_exact_message_ce :
    answer_question_from_aura_live (graphExec graphEmpty)
        "show patients with diabetes" =
      Except.ok (RouterResult.mk
        "I couldn\x27t find patients with conditions matching **\x27diabetes\x27**."
        none [CypherQuery.patientsByCondition "diabetes"]) ∧
    "I couldn\x27t find patients with conditions matching **\x27diabetes\x27**." ≠
      "I couldn\x27t find patients with conditions matching \x27diabetes\x27." :=
  ⟨by rfl, by decide⟩

/-- Witness for the corrected C5 at the concrete empty store. -/
theorem router_zero_rows_not_found_witness :
    (RouterResult.mk
      "I couldn\x27t find patients with conditions matching **\x27diabetes\x27**."
      none [CypherQuery.patientsByCondition "diabetes"]).table = none ∧
    strContains
      (RouterResult.mk
        "I couldn\x27t find patients with conditions matching **\x27diabetes\x27**."
        none [CypherQuery.patientsByCondition "diabetes"]).message
      (queryParam (CypherQuery.patientsByCondition "diabetes")) = true :=
  router_zero_rows_not_found.1 graphEmpty "show patients with diabetes" _ _
    (by rfl) (by rfl) (by rfl)
